import Mathlib

/-!
# Verification of the Rust_Calac calculator core

Shallow embedding of `src/engine.rs` (tokenizer → recursive-descent
parser/evaluator → engine-state orchestration → number formatter).

Modelling conventions:
* Rust `f64` values are modelled by `ℚ`.  Every finite double is a rational,
  and all claim-relevant computations (small integer arithmetic, division,
  integer powers, factorials, scaling by the double constant π) are exact.
  The binary constants `PI` and `E` are embedded as the exact rational values
  of the corresponding `f64` constants.
* `f64::is_nan` / `f64::is_infinite` have no counterpart on `ℚ`: every
  rational models a finite double, so both predicates are embedded as the
  constantly-false predicate (`rustIsNaN` / `rustIsInf`).
* The transcendental `f64` intrinsics (`sin`, `cos`, …, and `powf` at
  non-integral exponents) are irrational-valued and lie outside the rational
  embedding.  They are kept abstract: the whole evaluator is parameterised by
  a `TransFns` record supplying an arbitrary interpretation for them, and all
  theorems hold for every interpretation.  `powf` at integral exponents (the
  only case any claim exercises) is pinned to the exact `zpow`.
* Rust machine integers are modelled as `ℕ` with explicit reduction
  `% 2 ^ 128` where the source uses wrapping `u128` arithmetic.
* Recursion in the tokenizer and parser is made structural with an explicit
  fuel argument; the fuel supplied by the entry points strictly dominates the
  number of steps either loop can take, so the out-of-fuel branch is dead
  code (kept only to make the recursion structural).
-/

deriving instance DecidableEq for Except

/- Batteries marks the `Rat` field operations irreducible; re-allow unfolding
so that concrete engine runs can be settled by `decide`. -/
attribute [local semireducible] Rat.mul Rat.add Rat.sub Rat.inv Rat.ofScientific

-- ──────────────────────── Tokens (engine.rs `Token`) ────────────────────────

/-- `Token` from engine.rs: numeric literals carry the already-resolved double
(constants, `Ans` and memory variables are substituted at scan time). -/
inductive Token where
  | Number (v : ℚ)
  | Plus | Minus | Mul | Div | Pow
  | LParen | RParen
  | Func (name : String)
  | Const (name : String)
  | Comma
  | Factorial
  | Percent
deriving DecidableEq, Repr

-- ──────────────────── Angle mode (engine.rs `AngleMode`) ────────────────────

/-- `AngleMode` from engine.rs. -/
inductive AngleMode where
  | Degrees
  | Radians
  | Gradians
deriving DecidableEq, Repr

/-- The exact rational value of Rust's `std::f64::consts::PI`
(the `f64` nearest to π): 884279719003555 / 2^48. -/
def ratPI : ℚ := 884279719003555 / 281474976710656

/-- The exact rational value of Rust's `std::f64::consts::E`
(the `f64` nearest to Euler's number): 6121026514868073 / 2^51. -/
def ratE : ℚ := 6121026514868073 / 2251799813685248

/-- `AngleMode::to_rad` from engine.rs. -/
def AngleMode.to_rad (m : AngleMode) (v : ℚ) : ℚ :=
  match m with
  | .Degrees => v * ratPI / 180
  | .Radians => v
  | .Gradians => v * ratPI / 200

/-- `AngleMode::from_rad` from engine.rs. -/
def AngleMode.from_rad (m : AngleMode) (v : ℚ) : ℚ :=
  match m with
  | .Degrees => v * 180 / ratPI
  | .Radians => v
  | .Gradians => v * 200 / ratPI

/-- `AngleMode::label` from engine.rs. -/
def AngleMode.label (m : AngleMode) : String :=
  match m with
  | .Degrees => "D"
  | .Radians => "R"
  | .Gradians => "G"

-- ──────────────── Display format (engine.rs `DisplayFormat`) ────────────────

/-- `DisplayFormat` from engine.rs (`Fix` carries a `u8` precision). -/
inductive DisplayFormat where
  | Normal
  | Scientific
  | Engineering
  | Fix (n : ℕ)
deriving DecidableEq, Repr

-- ───────────────────── Engine state (engine.rs `CalcEngine`) ────────────────

/-- `CalcEngine` from engine.rs.  The `HashMap<char, f64>` memory is modelled
as an association list (lookup by key; insertion order immaterial). -/
structure CalcEngine where
  angle : AngleMode
  format : DisplayFormat
  ans : ℚ
  memory : List (Char × ℚ)
  m_plus : ℚ
  history : List (String × ℚ)
deriving DecidableEq, Repr

/-- `memory.get(&key).unwrap_or(&0.0)` on the association-list model. -/
def memGetD (mem : List (Char × ℚ)) (k : Char) : ℚ :=
  (List.lookup k mem).getD 0

/-- `CalcEngine::default` / `CalcEngine::new` from engine.rs: the nine
variables A B C D E F X Y M pre-set to 0.0, Degrees, Normal format. -/
def CalcEngine.new : CalcEngine :=
  { angle := .Degrees
    format := .Normal
    ans := 0
    memory := [('A', 0), ('B', 0), ('C', 0), ('D', 0), ('E', 0),
               ('F', 0), ('X', 0), ('Y', 0), ('M', 0)]
    m_plus := 0
    history := [] }

/-- `CalcEngine::cycle_angle` from engine.rs. -/
def CalcEngine.cycle_angle (st : CalcEngine) : CalcEngine :=
  { st with angle :=
      match st.angle with
      | .Degrees => .Radians
      | .Radians => .Gradians
      | .Gradians => .Degrees }

/-- `CalcEngine::store` from engine.rs (`HashMap::insert`: replace or add). -/
def CalcEngine.store (st : CalcEngine) (var : Char) (val : ℚ) : CalcEngine :=
  { st with memory := (var, val) :: st.memory.filter (fun p => !(p.1 == var)) }

/-- `CalcEngine::recall` from engine.rs. -/
def CalcEngine.recall (st : CalcEngine) (var : Char) : ℚ :=
  memGetD st.memory var

/-- `CalcEngine::m_plus_op` from engine.rs. -/
def CalcEngine.m_plus_op (st : CalcEngine) (val : ℚ) : CalcEngine :=
  { st with m_plus := st.m_plus + val }

/-- `CalcEngine::m_minus_op` from engine.rs. -/
def CalcEngine.m_minus_op (st : CalcEngine) (val : ℚ) : CalcEngine :=
  { st with m_plus := st.m_plus - val }

/-- `CalcEngine::recall_m` from engine.rs. -/
def CalcEngine.recall_m (st : CalcEngine) : ℚ := st.m_plus

/-- `CalcEngine::clear_m` from engine.rs. -/
def CalcEngine.clear_m (st : CalcEngine) : CalcEngine := { st with m_plus := 0 }

-- ─────────────────────────── Tokenizer (engine.rs) ──────────────────────────

/-- The fixed function-name vocabulary of the tokenizer, in the source's order
(longest first to avoid prefix clash). -/
def funcNames : List String :=
  ["asinh", "acosh", "atanh", "asin", "acos", "atan",
   "sinh", "cosh", "tanh", "sin", "cos", "tan",
   "log₂", "log", "ln", "sqrt", "cbrt", "abs", "exp",
   "nCr", "nPr", "Rec", "Pol"]

/-- The memory-variable character set of the tokenizer: the string literal
`"ABCDEFXYMm"` from engine.rs line 245. -/
def memVarChars : List Char := ['A', 'B', 'C', 'D', 'E', 'F', 'X', 'Y', 'M', 'm']

/-- Boolean prefix test on character lists (Rust `str::starts_with`). -/
def listIsPrefix : List Char → List Char → Bool
  | [], _ => true
  | _ :: _, [] => false
  | a :: as, b :: bs => a == b && listIsPrefix as bs

/-- Rust's `i + 1 >= chars.len() || !chars[i+1].is_alphanumeric()` guard,
on the yet-unconsumed characters.  `is_alphanumeric` is modelled on the
ASCII range (all claim-relevant inputs are ASCII). -/
def nextNotAlnum : List Char → Bool
  | [] => true
  | d :: _ => !d.isAlphanum

/-- The numeric-literal scan of engine.rs lines 212-227: a run of ASCII digits
and dots, optionally followed by `e`/`E`, an optional sign and a run of
digits.  `c` is the first character (already known to be a digit or dot).
Returns the captured characters and the rest of the input. -/
def scanNumber (c : Char) (cs : List Char) : List Char × List Char :=
  let (m, r1) := cs.span (fun x => x.isDigit || x == '.')
  match r1 with
  | x :: r2 =>
    if x == 'e' || x == 'E' then
      match r2 with
      | sgn :: r3 =>
        if sgn == '+' || sgn == '-' then
          let (ds, r4) := r3.span Char.isDigit
          (c :: m ++ x :: sgn :: ds, r4)
        else
          let (ds, r4) := r2.span Char.isDigit
          (c :: m ++ x :: ds, r4)
      | [] => (c :: m ++ [x], [])
    else (c :: m, r1)
  | [] => (c :: m, [])

/-- Digit run to natural number. -/
def digitsToNat (ds : List Char) : ℕ :=
  ds.foldl (fun a c => a * 10 + (c.toNat - '0'.toNat)) 0

/-- Rust's `str::parse::<f64>` on the slices captured by `scanNumber`
(digits/dots then an optional exponent part): accepted iff the mantissa has at
least one digit and at most one dot and the exponent part (when the marker is
present) has at least one digit; the value is the exact decimal value.
Returns `none` exactly when Rust's parse fails. -/
def parseNumber (cs : List Char) : Option ℚ :=
  let (mant, rest) := cs.span (fun x => !(x == 'e' || x == 'E'))
  let (ip, dotFrac) := mant.span (fun x => !(x == '.'))
  let frac := dotFrac.drop 1
  if !(ip.all Char.isDigit) then none
  else if !(frac.all Char.isDigit) then none
  else if ip.length + frac.length == 0 then none
  else
    let base : ℚ := (digitsToNat ip : ℚ) + (digitsToNat frac : ℚ) / 10 ^ frac.length
    match rest with
    | [] => some base
    | _ :: r =>
      let (neg, ds) :=
        match r with
        | s :: t =>
          if s == '+' then (false, t)
          else if s == '-' then (true, t)
          else (false, r)
        | [] => (false, [])
      if ds.isEmpty || !(ds.all Char.isDigit) then none
      else if neg then some (base / 10 ^ digitsToNat ds)
      else some (base * 10 ^ digitsToNat ds)

/-- The single-character operator/punctuation table of engine.rs lines 266-277. -/
def charToken (c : Char) : Option Token :=
  if c == '+' then some .Plus
  else if c == '-' then some .Minus
  else if c == '*' || c == '×' then some .Mul
  else if c == '/' || c == '÷' then some .Div
  else if c == '^' then some .Pow
  else if c == '(' then some .LParen
  else if c == ')' then some .RParen
  else if c == ',' then some .Comma
  else if c == '!' then some .Factorial
  else if c == '%' then some .Percent
  else none

/-- The main tokenizer loop of engine.rs `tokenize`, with fuel.  Every
iteration consumes at least one character and one unit of fuel, so fuel
`input.length + 1` (supplied by `tokenize`) never runs out. -/
def tokGo (ans : ℚ) (mem : List (Char × ℚ)) : ℕ → List Char → Except String (List Token)
  | 0, _ => .error "fuel exhausted"
  | _ + 1, [] => .ok []
  | f + 1, c :: cs =>
    if c == ' ' then tokGo ans mem f cs
    else if c.isDigit || c == '.' then
      let (numCs, rest) := scanNumber c cs
      match parseNumber numCs with
      | none => .error ("Bad number: " ++ String.mk numCs)
      | some v =>
        match tokGo ans mem f rest with
        | .error e => .error e
        | .ok ts => .ok (.Number v :: ts)
    else if listIsPrefix ['A', 'n', 's'] (c :: cs) then
      match tokGo ans mem f (cs.drop 2) with
      | .error e => .error e
      | .ok ts => .ok (.Number ans :: ts)
    else if c == 'π' then
      match tokGo ans mem f cs with
      | .error e => .error e
      | .ok ts => .ok (.Number ratPI :: ts)
    else if c == 'e' && nextNotAlnum cs then
      match tokGo ans mem f cs with
      | .error e => .error e
      | .ok ts => .ok (.Number ratE :: ts)
    else if memVarChars.contains c && nextNotAlnum cs then
      match tokGo ans mem f cs with
      | .error e => .error e
      | .ok ts => .ok (.Number (memGetD mem c.toUpper) :: ts)
    else
      match funcNames.find? (fun n => listIsPrefix n.toList (c :: cs)) with
      | some name =>
        match tokGo ans mem f ((c :: cs).drop name.length) with
        | .error e => .error e
        | .ok ts => .ok (.Func name :: ts)
      | none =>
        match charToken c with
        | some t =>
          match tokGo ans mem f cs with
          | .error e => .error e
          | .ok ts => .ok (t :: ts)
        | none => .error ("Unknown character: '" ++ String.singleton c ++ "'")

/-- `tokenize` from engine.rs: raw characters plus the `Ans`/memory snapshot
to a flat token sequence. -/
def tokenize (input : List Char) (ans : ℚ) (mem : List (Char × ℚ)) :
    Except String (List Token) :=
  tokGo ans mem (input.length + 1) input

-- ──────────────── Abstract transcendental `f64` intrinsics ──────────────────

/-- The transcendental `f64` intrinsics used by engine.rs.  Their values are
irrational and lie outside the rational embedding, so the whole evaluator is
parameterised by an arbitrary interpretation of them; no claim depends on
their values.  `rpow` interprets `f64::powf` at non-integral exponents only
(integral exponents are exact and are pinned in `rustPowf`). -/
structure TransFns where
  sin : ℚ → ℚ
  cos : ℚ → ℚ
  tan : ℚ → ℚ
  asin : ℚ → ℚ
  acos : ℚ → ℚ
  atan : ℚ → ℚ
  sinh : ℚ → ℚ
  cosh : ℚ → ℚ
  tanh : ℚ → ℚ
  asinh : ℚ → ℚ
  acosh : ℚ → ℚ
  atanh : ℚ → ℚ
  log10 : ℚ → ℚ
  log2 : ℚ → ℚ
  ln : ℚ → ℚ
  sqrt : ℚ → ℚ
  cbrt : ℚ → ℚ
  exp : ℚ → ℚ
  rpow : ℚ → ℚ → ℚ

/-- A concrete (arbitrary) interpretation of the intrinsics, used to
instantiate theorems on concrete inputs. -/
def dummyT : TransFns :=
  { sin := fun _ => 0, cos := fun _ => 0, tan := fun _ => 0
    asin := fun _ => 0, acos := fun _ => 0, atan := fun _ => 0
    sinh := fun _ => 0, cosh := fun _ => 0, tanh := fun _ => 0
    asinh := fun _ => 0, acosh := fun _ => 0, atanh := fun _ => 0
    log10 := fun _ => 0, log2 := fun _ => 0, ln := fun _ => 0
    sqrt := fun _ => 0, cbrt := fun _ => 0, exp := fun _ => 0
    rpow := fun _ _ => 0 }

-- ─────────────────────────── Numeric helpers ────────────────────────────────

/-- `f64::trunc` on the rational model (round toward zero), as an integer. -/
def truncInt (q : ℚ) : ℤ :=
  if q < 0 then -(Rat.floor (-q)) else Rat.floor q

/-- Rust `as u64` cast from `f64` (truncate toward zero, saturate at the
bounds; NaN has no rational model). -/
def ratToU64 (q : ℚ) : ℕ :=
  if truncInt q < 0 then 0 else min (truncInt q).toNat (2 ^ 64 - 1)

/-- `f64::powf` from the evaluator: exact `zpow` at integral exponents (the
only case any claim exercises; `f64` pow is exact there on the claims'
operands), the abstract `rpow` interpretation otherwise. -/
def rustPowf (T : TransFns) (base expv : ℚ) : ℚ :=
  if expv.den = 1 then base ^ expv.num else T.rpow base expv

/-- `factorial` from engine.rs lines 496-503: domain guard, then the running
`u128` product `for i in 2..=(n as u64) { result *= i }`.  The `u128`
multiplication wraps (release-mode Rust), modelled by `% 2 ^ 128` at each
step; the final `result as f64` promotion is exact in the rational model. -/
def factorial (n : ℚ) : Except String ℚ :=
  if n < 0 ∨ ¬n = (truncInt n : ℚ) ∨ 69 < n then .error "Math ERROR"
  else
    .ok (((List.range' 2 (ratToU64 n - 1)).foldl
      (fun acc i => acc * i % 2 ^ 128) 1 : ℕ) : ℚ)

/-- `combinations` from engine.rs (multiplicative formula, wrapping `u128`
multiplication, truncating `u128` division). -/
def combinations (n r : ℕ) : ℕ :=
  if r == 0 || r == n then 1
  else
    let r := min r (n - r)
    (List.range r).foldl (fun acc i => acc * (n - i) % 2 ^ 128 / (i + 1)) 1

/-- `permutations` from engine.rs (falling-factorial product of `r` terms,
wrapping `u128` multiplication). -/
def permutations (n r : ℕ) : ℕ :=
  if r == 0 then 1
  else (List.range r).foldl (fun acc i => acc * (n - i) % 2 ^ 128) 1

/-- `f64::to_radians` (used by `Rec`): always degrees→radians. -/
def degToRad (v : ℚ) : ℚ := v * ratPI / 180

/-- `Parser::apply_func` from engine.rs lines 412-465 (single-argument
functions; `self.angle` is passed explicitly). -/
def applyFunc (T : TransFns) (angle : AngleMode) (name : String) (arg : ℚ) :
    Except String ℚ :=
  let r := angle.to_rad arg
  if name == "sin" then .ok (T.sin r)
  else if name == "cos" then .ok (T.cos r)
  else if name == "tan" then
    if |T.cos r| < 1 / 10 ^ 12 then .error "Math ERROR (tan undef)"
    else .ok (T.tan r)
  else if name == "asin" then
    if 1 < |arg| then .error "Math ERROR" else .ok (angle.from_rad (T.asin arg))
  else if name == "acos" then
    if 1 < |arg| then .error "Math ERROR" else .ok (angle.from_rad (T.acos arg))
  else if name == "atan" then .ok (angle.from_rad (T.atan arg))
  else if name == "sinh" then .ok (T.sinh arg)
  else if name == "cosh" then .ok (T.cosh arg)
  else if name == "tanh" then .ok (T.tanh arg)
  else if name == "asinh" then .ok (T.asinh arg)
  else if name == "acosh" then
    if arg < 1 then .error "Math ERROR" else .ok (T.acosh arg)
  else if name == "atanh" then
    if 1 ≤ |arg| then .error "Math ERROR" else .ok (T.atanh arg)
  else if name == "log" then
    if arg ≤ 0 then .error "Math ERROR" else .ok (T.log10 arg)
  else if name == "log₂" then
    if arg ≤ 0 then .error "Math ERROR" else .ok (T.log2 arg)
  else if name == "ln" then
    if arg ≤ 0 then .error "Math ERROR" else .ok (T.ln arg)
  else if name == "sqrt" then
    if arg < 0 then .error "Math ERROR" else .ok (T.sqrt arg)
  else if name == "cbrt" then .ok (T.cbrt arg)
  else if name == "abs" then .ok |arg|
  else if name == "exp" then .ok (T.exp arg)
  else .error ("Unknown function: " ++ name)

/-- `apply_two_arg_func` from engine.rs lines 468-492. -/
def applyTwoArgFunc (T : TransFns) (name : String) (a b : ℚ) :
    Except String ℚ :=
  if name == "nCr" then
    let n := ratToU64 a
    let r := ratToU64 b
    if n < r then .error "Math ERROR" else .ok ((combinations n r : ℕ) : ℚ)
  else if name == "nPr" then
    let n := ratToU64 a
    let r := ratToU64 b
    if n < r then .error "Math ERROR" else .ok ((permutations n r : ℕ) : ℚ)
  else if name == "Rec" then .ok (a * T.cos (degToRad b))
  else if name == "Pol" then .ok (T.sqrt (a * a + b * b))
  else .error ("Unknown 2-arg function: " ++ name)

-- ─────────────────────────── Parser (engine.rs) ─────────────────────────────

/-- The `Parser` struct from engine.rs: token sequence, cursor, angle mode. -/
structure PState where
  tokens : List Token
  pos : ℕ
  angle : AngleMode
deriving DecidableEq, Repr

/-- `Parser::peek`. -/
def peekT (s : PState) : Option Token := s.tokens[s.pos]?

/-- `Parser::next` (clone the token under the cursor and advance). -/
def nextT (s : PState) : Option Token × PState :=
  match s.tokens[s.pos]? with
  | some t => (some t, { s with pos := s.pos + 1 })
  | none => (none, s)

/-- Advance the cursor by one (the `self.next()` of a consume-if-present). -/
def bumpT (s : PState) : PState := { s with pos := s.pos + 1 }

/-- Rust `{:?}` rendering of the token option in the "Unexpected token"
message (numeric payloads rendered via `Repr`; the exact text is
non-semantic — no claim inspects it). -/
def debugOptToken : Option Token → String
  | none => "None"
  | some t => "Some(" ++ (reprStr t) ++ ")"

/- The recursive-descent parser/evaluator of engine.rs lines 294-466,
`expr → add_sub → mul_div → power → postfix → unary → primary`, evaluated
during parsing.  The `loop`s of the source become the `...Loop` functions.
Recursion is structural on an explicit fuel; `parserFuel` below always
suffices, so the out-of-fuel branch is dead code. -/
mutual

/-- `Parser::parse_expr` from engine.rs (the additive entry point). -/
def parseExpr (T : TransFns) : ℕ → PState → Except String ℚ × PState
  | 0, s => (.error "fuel exhausted", s)
  | f + 1, s => parseAddSub T f s

def parseAddSub (T : TransFns) : ℕ → PState → Except String ℚ × PState
  | 0, s => (.error "fuel exhausted", s)
  | f + 1, s =>
    match parseMulDiv T f s with
    | (.error e, s') => (.error e, s')
    | (.ok v, s') => parseAddSubLoop T f v s'

def parseAddSubLoop (T : TransFns) : ℕ → ℚ → PState → Except String ℚ × PState
  | 0, _, s => (.error "fuel exhausted", s)
  | f + 1, left, s =>
    match peekT s with
    | some .Plus =>
      match parseMulDiv T f (bumpT s) with
      | (.error e, s') => (.error e, s')
      | (.ok r, s') => parseAddSubLoop T f (left + r) s'
    | some .Minus =>
      match parseMulDiv T f (bumpT s) with
      | (.error e, s') => (.error e, s')
      | (.ok r, s') => parseAddSubLoop T f (left - r) s'
    | _ => (.ok left, s)

def parseMulDiv (T : TransFns) : ℕ → PState → Except String ℚ × PState
  | 0, s => (.error "fuel exhausted", s)
  | f + 1, s =>
    match parsePower T f s with
    | (.error e, s') => (.error e, s')
    | (.ok v, s') => parseMulDivLoop T f v s'

def parseMulDivLoop (T : TransFns) : ℕ → ℚ → PState → Except String ℚ × PState
  | 0, _, s => (.error "fuel exhausted", s)
  | f + 1, left, s =>
    match peekT s with
    | some .Mul =>
      match parsePower T f (bumpT s) with
      | (.error e, s') => (.error e, s')
      | (.ok r, s') => parseMulDivLoop T f (left * r) s'
    | some .Div =>
      match parsePower T f (bumpT s) with
      | (.error e, s') => (.error e, s')
      | (.ok r, s') =>
        if r = 0 then (.error "Math ERROR (div/0)", s')
        else parseMulDivLoop T f (left / r) s'
    | _ => (.ok left, s)

def parsePower (T : TransFns) : ℕ → PState → Except String ℚ × PState
  | 0, s => (.error "fuel exhausted", s)
  | f + 1, s =>
    match parsePostfix T f s with
    | (.error e, s') => (.error e, s')
    | (.ok base, s') =>
      match peekT s' with
      | some .Pow =>
        match parseUnary T f (bumpT s') with
        | (.error e, s'') => (.error e, s'')
        | (.ok ex, s'') => (.ok (rustPowf T base ex), s'')
      | _ => (.ok base, s')

def parsePostfix (T : TransFns) : ℕ → PState → Except String ℚ × PState
  | 0, s => (.error "fuel exhausted", s)
  | f + 1, s =>
    match parseUnary T f s with
    | (.error e, s') => (.error e, s')
    | (.ok v, s') => parsePostfixLoop f v s'

def parsePostfixLoop : ℕ → ℚ → PState → Except String ℚ × PState
  | 0, _, s => (.error "fuel exhausted", s)
  | f + 1, val, s =>
    match peekT s with
    | some .Factorial =>
      match factorial val with
      | .error e => (.error e, bumpT s)
      | .ok v => parsePostfixLoop f v (bumpT s)
    | some .Percent => parsePostfixLoop f (val / 100) (bumpT s)
    | _ => (.ok val, s)

def parseUnary (T : TransFns) : ℕ → PState → Except String ℚ × PState
  | 0, s => (.error "fuel exhausted", s)
  | f + 1, s =>
    match peekT s with
    | some .Minus =>
      match parsePrimary T f (bumpT s) with
      | (.error e, s') => (.error e, s')
      | (.ok v, s') => (.ok (-v), s')
    | some .Plus => parsePrimary T f (bumpT s)
    | _ => parsePrimary T f s

def parsePrimary (T : TransFns) : ℕ → PState → Except String ℚ × PState
  | 0, s => (.error "fuel exhausted", s)
  | f + 1, s =>
    match nextT s with
    | (some (.Number v), s1) => (.ok v, s1)
    | (some .LParen, s1) =>
      match parseExpr T f s1 with
      | (.error e, s2) => (.error e, s2)
      | (.ok v, s2) =>
        match peekT s2 with
        | some .RParen => (.ok v, bumpT s2)
        | _ => (.ok v, s2)
    | (some (.Func name), s1) =>
      let s2 := match peekT s1 with
        | some .LParen => bumpT s1
        | _ => s1
      match parseExpr T f s2 with
      | (.error e, s3) => (.error e, s3)
      | (.ok arg, s3) =>
        if ["nCr", "nPr", "Rec", "Pol"].contains name then
          let s4 := match peekT s3 with
            | some .Comma => bumpT s3
            | _ => s3
          match parseExpr T f s4 with
          | (.error e, s5) => (.error e, s5)
          | (.ok arg2, s5) =>
            let s6 := match peekT s5 with
              | some .RParen => bumpT s5
              | _ => s5
            match applyTwoArgFunc T name arg arg2 with
            | .error e => (.error e, s6)
            | .ok r => (.ok r, s6)
        else
          let s4 := match peekT s3 with
            | some .RParen => bumpT s3
            | _ => s3
          match applyFunc T s.angle name arg with
          | .error e => (.error e, s4)
          | .ok r => (.ok r, s4)
    | (other, s1) => (.error ("Unexpected token: " ++ debugOptToken other), s1)

end

/-- Fuel supplied to the parser by `evaluate`: strictly dominates the depth of
any call tree the recursive descent can build on `ts` (each nesting level
consumes a token; the fixed descent chain has depth 7). -/
def parserFuel (ts : List Token) : ℕ := 8 * ts.length + 32

-- ───────────────── Engine orchestration (`CalcEngine::evaluate`) ────────────

/-- `f64::is_nan` on the rational model: every rational models a finite
double, so this is constantly false (see the header notes). -/
def rustIsNaN (_ : ℚ) : Bool := false

/-- `f64::is_infinite` on the rational model: constantly false. -/
def rustIsInf (_ : ℚ) : Bool := false

/-- The history append of engine.rs lines 141-142: push, then evict the
oldest entry once the length exceeds 50. -/
def pushHistory (h : List (String × ℚ)) (x : String × ℚ) : List (String × ℚ) :=
  let h2 := h ++ [x]
  if 50 < h2.length then h2.tail else h2

/-- `CalcEngine::evaluate` from engine.rs lines 132-145: tokenize with the
current `Ans`/memory snapshot, parse/evaluate with the current angle mode,
reject NaN/infinite results, then update `ans` and `history`.  Returns the
result together with the post-call engine state. -/
def evaluate (T : TransFns) (st : CalcEngine) (expr : String) :
    Except String ℚ × CalcEngine :=
  match tokenize expr.toList st.ans st.memory with
  | .error e => (.error e, st)
  | .ok ts =>
    match parseExpr T (parserFuel ts) { tokens := ts, pos := 0, angle := st.angle } with
    | (.error e, _) => (.error e, st)
    | (.ok result, _) =>
      if rustIsNaN result then (.error "Math ERROR", st)
      else if rustIsInf result then (.error "Math ERROR (overflow)", st)
      else (.ok result,
        { st with ans := result, history := pushHistory st.history (expr, result) })

-- ─────────────────────────── Formatter (engine.rs) ──────────────────────────

/-- Round a rational to the nearest integer, ties to even — the rounding of
Rust's float formatting (which renders the exact binary value correctly
rounded). -/
def roundHalfEven (q : ℚ) : ℤ :=
  let fl := Rat.floor q
  let r := q - (fl : ℚ)
  if r < 1 / 2 then fl
  else if 1 / 2 < r then fl + 1
  else if fl % 2 = 0 then fl else fl + 1

/-- Left-pad a digit string with zeros to width `w`. -/
def padZeros (s : String) (w : ℕ) : String :=
  String.mk (List.replicate (w - s.length) '0') ++ s

/-- Rust's `format!("{:.prec$}", val)` on the rational model: fixed-point
rendering with exactly `prec` fractional digits (sign, correctly rounded). -/
def fixRender (q : ℚ) (prec : ℕ) : String :=
  let scaled := roundHalfEven (q * 10 ^ prec)
  let a := scaled.natAbs
  let ip := Nat.repr (a / 10 ^ prec)
  let s := if q < 0 then "-" ++ ip else ip
  if prec = 0 then s
  else s ++ "." ++ padZeros (Nat.repr (a % 10 ^ prec)) prec

/-- Rust `str::trim_end_matches(c)`: strip every trailing occurrence of `c`. -/
def trimTrailing (c : Char) (s : String) : String :=
  String.mk (s.toList.reverse.dropWhile (· == c)).reverse

/-- `format_scientific` from engine.rs lines 169-176.  `log10().floor()` is
modelled by the exact `Int.log`; the mantissa division is exact. -/
def formatScientific (val : ℚ) (prec : ℕ) : String :=
  if val = 0 then "0"
  else
    let ex : ℤ := Int.log 10 |val|
    let mantissa := val / (10 : ℚ) ^ ex
    let s := trimTrailing '.' (trimTrailing '0' (fixRender mantissa prec))
    s ++ "×10^" ++ Int.repr ex

/-- `format_engineering` from engine.rs lines 178-184 (exponent floored to a
multiple of 3, fixed three fractional digits, no stripping). -/
def formatEngineering (val : ℚ) : String :=
  if val = 0 then "0"
  else
    let ex : ℤ := Int.log 10 |val|
    let engExp := ex.fdiv 3 * 3
    let mantissa := val / (10 : ℚ) ^ engExp
    fixRender mantissa 3 ++ "×10^" ++ Int.repr engExp

/-- `format_normal` from engine.rs lines 150-167. -/
def formatNormal (val : ℚ) : String :=
  if val = 0 then "0"
  else if |val| < 1 / 10 ^ 9 ∨ 10 ^ 10 ≤ |val| then formatScientific val 9
  else if val = (truncInt val : ℚ) ∧ |val| < 10 ^ 15 then Int.repr (truncInt val)
  else trimTrailing '.' (trimTrailing '0' (fixRender val 10))

/-- `CalcEngine::format_result` from engine.rs lines 119-129 (the NaN and
infinity branches are dead under the rational model, see `rustIsNaN`). -/
def CalcEngine.format_result (st : CalcEngine) (val : ℚ) : String :=
  if rustIsNaN val then "Math ERROR"
  else if rustIsInf val then (if 0 < val then "∞" else "-∞")
  else
    match st.format with
    | .Scientific => formatScientific val 9
    | .Engineering => formatEngineering val
    | .Fix n => fixRender val n
    | .Normal => formatNormal val

-- ───────────── Derived definitions used by the claim statements ─────────────

/-- Run a sequence of inputs through `evaluate`, threading the engine state
(the session behaviour of the surrounding UI loop). -/
def runEngine (T : TransFns) : CalcEngine → List String → CalcEngine
  | st, [] => st
  | st, e :: es => runEngine T (evaluate T st e).2 es

/-- The chronological list of `(inputText, resultValue)` pairs of the
successful evaluations along a run (failed evaluations contribute nothing). -/
def traceRun (T : TransFns) : CalcEngine → List String → List (String × ℚ)
  | _, [] => []
  | st, e :: es =>
    (match (evaluate T st e).1 with
     | .ok v => [(e, v)]
     | .error _ => []) ++ traceRun T (evaluate T st e).2 es

/-- The 26 lowercase ASCII letters. -/
def lcLetters : List Char :=
  ['a', 'b', 'c', 'd', 'e', 'f', 'g', 'h', 'i', 'j', 'k', 'l', 'm',
   'n', 'o', 'p', 'q', 'r', 's', 't', 'u', 'v', 'w', 'x', 'y', 'z']

/-- A memory snapshot with pairwise-distinct, recognisable values (used to
observe which characters the tokenizer treats as memory variables). -/
def memProbe : List (Char × ℚ) :=
  [('A', 11), ('B', 12), ('C', 13), ('D', 14), ('E', 15),
   ('F', 16), ('X', 17), ('Y', 18), ('M', 19)]

/-- `c` behaves as a memory-variable alias: tokenizing the one-character
input `c` substitutes the snapshot value of its uppercased name. -/
def isMemAlias (c : Char) : Bool :=
  tokenize [c] 0 memProbe == .ok [.Number (memGetD memProbe c.toUpper)]

-- ───────────────────────────── Sanity checks ────────────────────────────────

example : tokenize "2^3^2".toList 0 [] =
    .ok [.Number 2, .Pow, .Number 3, .Pow, .Number 2] := by decide
example : tokenize "m".toList 0 [('M', 7)] = .ok [.Number 7] := by decide
example : (evaluate dummyT CalcEngine.new "2+3*4").1 = .ok 14 := by decide
example : (evaluate dummyT CalcEngine.new "5!").1 = .ok 120 := by decide
example : (evaluate dummyT CalcEngine.new "nCr(5,2)").1 = .ok 10 := by decide
example : (evaluate dummyT CalcEngine.new "70!").1 = .error "Math ERROR" := by decide
example : CalcEngine.new.format_result 0 = "0" := by decide

-- ───────────────────────────── Helper lemmas ────────────────────────────────

/-- How `evaluate` transforms the engine state, as a function of its result:
on success `ans` is set and the history appended, on failure the state is
returned untouched. -/
theorem evaluate_snd_eq (T : TransFns) (st : CalcEngine) (s : String) :
    (evaluate T st s).2 =
      match (evaluate T st s).1 with
      | .ok v => { st with ans := v, history := pushHistory st.history (s, v) }
      | .error _ => st := by
  rcases htok : tokenize s.data st.ans st.memory with e | ts
  · simp [evaluate, htok]
  · rcases hp : parseExpr T (parserFuel ts) { tokens := ts, pos := 0, angle := st.angle }
      with ⟨r, ps⟩
    rcases r with e | v
    · simp [evaluate, htok, hp]
    · simp [evaluate, htok, hp, rustIsNaN, rustIsInf]

/-- A `pushHistory` step keeps the length bound. -/
theorem pushHistory_length_le (h : List (String × ℚ)) (x : String × ℚ)
    (hh : h.length ≤ 50) : (pushHistory h x).length ≤ 50 := by
  have hif : pushHistory h x =
      if 50 < (h ++ [x]).length then (h ++ [x]).tail else h ++ [x] := rfl
  rw [hif]
  split <;>
    simp only [List.length_tail, List.length_append, List.length_cons,
      List.length_nil] at * <;>
    omega

/-- Folding `pushHistory` keeps exactly the last 50 entries, in order. -/
theorem foldl_pushHistory_drop (A : List (String × ℚ)) :
    ∀ h : List (String × ℚ), h.length ≤ 50 →
      List.foldl pushHistory h A = (h ++ A).drop ((h ++ A).length - 50) := by
  induction A with
  | nil =>
    intro h hh
    rw [List.foldl_nil, List.append_nil, Nat.sub_eq_zero_of_le hh, List.drop_zero]
  | cons x A ih =>
    intro h hh
    rw [List.foldl_cons, ih (pushHistory h x) (pushHistory_length_le h x hh)]
    have hassoc : (h ++ [x]) ++ A = h ++ x :: A := by simp
    by_cases h50 : 50 < h.length + 1
    · have h1 : h.length = 50 := by omega
      have hp : pushHistory h x = (h ++ [x]).drop 1 := by
        unfold pushHistory
        rw [if_pos (by simp [h1]), List.drop_one]
      have e1 : ((h ++ [x]) ++ A).drop 1 = (h ++ [x]).drop 1 ++ A :=
        List.drop_append_of_le_length (by simp)
      rw [hp, ← e1, List.drop_drop, hassoc]
      congr 1
      simp only [List.length_drop, List.length_append, List.length_cons]
      omega
    · have hp : pushHistory h x = h ++ [x] := by
        unfold pushHistory
        rw [if_neg (by simp; omega)]
      rw [hp, hassoc]

/-- The history of a run is `pushHistory` folded over the success trace. -/
theorem runEngine_history (T : TransFns) (es : List String) :
    ∀ st : CalcEngine,
      (runEngine T st es).history =
        List.foldl pushHistory st.history (traceRun T st es) := by
  induction es with
  | nil => intro st; rfl
  | cons e es ih =>
    intro st
    have hs := evaluate_snd_eq T st e
    rcases h : (evaluate T st e).1 with er | v
    · rw [h] at hs
      simp only [runEngine, traceRun, h, List.nil_append]
      rw [ih ((evaluate T st e).2), hs]
    · rw [h] at hs
      simp only [runEngine, traceRun, h, List.singleton_append, List.foldl_cons]
      rw [ih ((evaluate T st e).2), hs]

-- ───────────────────────────── Claim theorems ───────────────────────────────

/-- **C1** (code bug).  The claim says `evaluate("2^3^2")` returns 512 with a
right-associative `^` (and the source comment `// right-assoc` documents the
same intent), but `parse_power` parses the right-hand side with `parse_unary`,
which cannot consume another `^`: the engine evaluates `2^3 = 8` and the
trailing `^2` is silently left unconsumed, so the result is 8, not 512.
Parenthesising explicitly (`2^(3^2)`) does give 512. -/
theorem C1_power_chain_not_right_associative :
    (evaluate dummyT CalcEngine.new "2^3^2").1 = .ok 8 ∧
    (8 : ℚ) ≠ 512 ∧
    (evaluate dummyT CalcEngine.new "2^(3^2)").1 = .ok 512 := by
  refine ⟨by decide, by norm_num, by decide⟩

/-- **C2** (counterexample).  The claim says every `DisplayFormat` renders 0.0
as `"0"`, but the `Fix` branch of `format_result` is `format!("{:.prec$}", v)`
with no zero special-case: precision 2 renders 0.0 as `"0.00"`. -/
theorem C2_cex_fix_formats_zero_with_decimals :
    ({ CalcEngine.new with format := .Fix 2 } : CalcEngine).format_result 0 = "0.00" ∧
    ("0.00" : String) ≠ "0" := by
  refine ⟨by decide, by decide⟩

/-- **C2** (amended).  Formatting 0.0 yields `"0"` in Normal, Scientific and
Engineering formats and in Fixed format with precision 0; Fixed format with
precision `1 ≤ n ≤ 9` yields `"0."` followed by `n` zeros instead. -/
theorem C2_zero_rendering (n : ℕ) (hn : n ≤ 9) :
    CalcEngine.new.format_result 0 = "0" ∧
    ({ CalcEngine.new with format := .Scientific } : CalcEngine).format_result 0 = "0" ∧
    ({ CalcEngine.new with format := .Engineering } : CalcEngine).format_result 0 = "0" ∧
    ({ CalcEngine.new with format := .Fix n } : CalcEngine).format_result 0 =
      (if n = 0 then "0" else "0." ++ String.mk (List.replicate n '0')) := by
  refine ⟨by decide, by decide, by decide, ?_⟩
  interval_cases n <;> decide

/-- Witness for `C2_zero_rendering` at precision 2. -/
theorem C2_zero_rendering_witness :
    (2 : ℕ) ≤ 9 ∧
      (CalcEngine.new.format_result 0 = "0" ∧
       ({ CalcEngine.new with format := .Scientific } : CalcEngine).format_result 0 = "0" ∧
       ({ CalcEngine.new with format := .Engineering } : CalcEngine).format_result 0 = "0" ∧
       ({ CalcEngine.new with format := .Fix 2 } : CalcEngine).format_result 0 =
         (if 2 = 0 then "0" else "0." ++ String.mk (List.replicate 2 '0'))) :=
  ⟨by decide, C2_zero_rendering 2 (by decide)⟩

/-- **C3** (code bug).  The claim (and the spec) say `v!` is the exact integer
product for every integral `0 ≤ v ≤ 69`, but the source accumulates the
product in a `u128`, which overflows from `v = 35` on (`35! > 2^128`): the
wrapping product yields `35! % 2^128 ≠ 35!` (release mode; debug mode
panics).  Exactness does hold up to `34!`, and the domain guard (negative,
non-integral, or above 69 fails with `Math ERROR`) behaves as claimed. -/
theorem C3_factorial_u128_overflow :
    factorial 34 = .ok ((Nat.factorial 34 : ℕ) : ℚ) ∧
    factorial 35 = .ok ((Nat.factorial 35 % 2 ^ 128 : ℕ) : ℚ) ∧
    ((Nat.factorial 35 % 2 ^ 128 : ℕ) : ℚ) ≠ ((Nat.factorial 35 : ℕ) : ℚ) ∧
    (evaluate dummyT CalcEngine.new "35!").1 =
      .ok ((Nat.factorial 35 % 2 ^ 128 : ℕ) : ℚ) ∧
    (evaluate dummyT CalcEngine.new "5!").1 = .ok 120 ∧
    (evaluate dummyT CalcEngine.new "70!").1 = .error "Math ERROR" ∧
    factorial (1 / 2) = .error "Math ERROR" ∧
    factorial (-1) = .error "Math ERROR" := by
  refine ⟨by decide, by decide, by decide, by decide, by decide, by decide,
    by decide, by decide⟩

/-- **C4** (counterexample).  The claim says the tokenizer accepts *exactly
two* lowercase aliases for memory variables; scanning all 26 lowercase
letters against the tokenizer shows that exactly one (`m`, for `M`)
behaves as a memory variable. -/
theorem C4_cex_exactly_one_lowercase_alias :
    lcLetters.filter isMemAlias = ['m'] ∧
    (lcLetters.filter isMemAlias).length ≠ 2 := by
  refine ⟨by decide, by decide⟩

/-- **C4** (amended).  The tokenizer's memory-variable names are the fixed
set of single uppercase letters A–F, X, Y, M plus exactly *one*
lowercase-accepted alias (`m`), which normalises to uppercase; a recognised
variable is valid only when not immediately followed by an alphanumeric
character (otherwise the character is rejected as unknown), and is
substituted at scan time with its value from the memory snapshot,
defaulting to 0.0 when absent. -/
theorem C4_memory_variable_tokenization (ans : ℚ) (mem : List (Char × ℚ))
    (c d : Char) (hc : c ∈ memVarChars) (hd : d.isAlphanum = true) :
    tokenize [c] ans mem = .ok [.Number (memGetD mem c.toUpper)] ∧
    tokenize [c] ans [] = .ok [.Number 0] ∧
    tokenize [c, d] ans mem =
      .error ("Unknown character: '" ++ String.singleton c ++ "'") ∧
    lcLetters.filter isMemAlias = ['m'] := by
  refine ⟨?_, ?_, ?_, by decide⟩
  · fin_cases hc <;> rfl
  · fin_cases hc <;> rfl
  · fin_cases hc <;>
      simp [tokenize, tokGo, scanNumber, listIsPrefix, nextNotAlnum, memVarChars,
        funcNames, charToken, memGetD, hd]

/-- Witness for `C4_memory_variable_tokenization` at `c := 'm'`, `d := '7'`,
with a concrete snapshot. -/
theorem C4_memory_variable_tokenization_witness :
    tokenize ['m'] 0 memProbe = .ok [.Number (memGetD memProbe 'm'.toUpper)] ∧
    tokenize ['m'] 0 [] = .ok [.Number 0] ∧
    tokenize ['m', '7'] 0 memProbe =
      .error ("Unknown character: '" ++ String.singleton 'm' ++ "'") ∧
    lcLetters.filter isMemAlias = ['m'] :=
  C4_memory_variable_tokenization 0 memProbe 'm' '7' (by decide) (by decide)

/-- **C5** (confirmed).  `evaluate` never checks that the parser consumed the
whole token sequence: whenever the tokens parse to a value `v` — with the
final cursor `p` left completely unconstrained — `evaluate` succeeds with
`v`, silently ignoring any trailing tokens; e.g. `"2)3"` evaluates to 2. -/
theorem C5_trailing_tokens_ignored (T : TransFns) (st : CalcEngine) (s : String)
    (ts : List Token) (v : ℚ) (p : PState)
    (htok : tokenize s.data st.ans st.memory = .ok ts)
    (hp : parseExpr T (parserFuel ts) { tokens := ts, pos := 0, angle := st.angle } =
      (.ok v, p)) :
    (evaluate T st s).1 = .ok v ∧
    (evaluate dummyT CalcEngine.new "2)3").1 = .ok 2 := by
  refine ⟨?_, by decide⟩
  simp [evaluate, htok, hp, rustIsNaN, rustIsInf]

/-- Witness for `C5_trailing_tokens_ignored` on `"2)3"`: the parser stops at
cursor position 1 of 3, and `evaluate` still succeeds with 2. -/
theorem C5_trailing_tokens_ignored_witness :
    (evaluate dummyT CalcEngine.new "2)3").1 = .ok 2 ∧
    (evaluate dummyT CalcEngine.new "2)3").1 = .ok 2 :=
  C5_trailing_tokens_ignored dummyT CalcEngine.new "2)3"
    [.Number 2, .RParen, .Number 3] 2
    { tokens := [.Number 2, .RParen, .Number 3], pos := 1, angle := .Degrees }
    (by decide) (by decide)

/-- **C6** (confirmed).  Every failing `evaluate` call — tokenizer error,
parse/eval error, or a rejected top-level result — leaves the engine state
(answer register, history, memory, accumulator, angle mode, display format)
exactly as it was. -/
theorem C6_failed_evaluate_preserves_state (T : TransFns) (st : CalcEngine)
    (s e : String) (h : (evaluate T st s).1 = .error e) :
    (evaluate T st s).2 = st := by
  rw [evaluate_snd_eq, h]

/-- Witness for `C6_failed_evaluate_preserves_state` on the failing input
`"5/0"` from the fresh engine. -/
theorem C6_failed_evaluate_preserves_state_witness :
    (evaluate dummyT CalcEngine.new "5/0").2 = CalcEngine.new :=
  C6_failed_evaluate_preserves_state dummyT CalcEngine.new "5/0"
    "Math ERROR (div/0)" (by decide)

/-- **C7** (confirmed).  The prefix sign wraps only a primary: for any
interpretation of the intrinsics, any angle mode, any `a` and any natural
exponent, the tokens of `-a^n` evaluate to `(-a)^n` (minus binds to its
operand before `^` is applied); concretely `evaluate("-2^2") = 4 ≠ -4`. -/
theorem C7_unary_minus_binds_before_power (T : TransFns) (ang : AngleMode)
    (a : ℚ) (n : ℕ) :
    parseExpr T (parserFuel [.Minus, .Number a, .Pow, .Number (n : ℚ)])
        { tokens := [.Minus, .Number a, .Pow, .Number (n : ℚ)], pos := 0, angle := ang } =
      (.ok ((-a) ^ (n : ℤ)),
        { tokens := [.Minus, .Number a, .Pow, .Number (n : ℚ)], pos := 4, angle := ang }) ∧
    (evaluate dummyT CalcEngine.new "-2^2").1 = .ok 4 ∧
    (-2 : ℚ) ^ (2 : ℤ) = 4 ∧
    -((2 : ℚ) ^ (2 : ℤ)) = -4 ∧
    (4 : ℚ) ≠ -4 := by
  refine ⟨rfl, by decide, by decide, by decide, by decide⟩

/-- **C8** (confirmed).  `*` and `/` are left-associative (for any
interpretation, angle mode and operands with nonzero divisors, the tokens of
`a/b/c` evaluate to `(a/b)/c`, which differs from `a/(b/c)` on `8/4/2`);
division whose divisor evaluates to exactly 0 fails with the divide-by-zero
error before any infinite value is produced, so `evaluate("5/0")` fails while
`evaluate("0/5")` returns 0. -/
theorem C8_division_by_zero_and_left_associativity (T : TransFns)
    (ang : AngleMode) (a b c : ℚ) (hb : b ≠ 0) (hc : c ≠ 0) :
    parseExpr T (parserFuel [.Number a, .Div, .Number b, .Div, .Number c])
        { tokens := [.Number a, .Div, .Number b, .Div, .Number c], pos := 0, angle := ang } =
      (.ok (a / b / c),
        { tokens := [.Number a, .Div, .Number b, .Div, .Number c], pos := 5, angle := ang }) ∧
    (evaluate dummyT CalcEngine.new "5/0").1 = .error "Math ERROR (div/0)" ∧
    (evaluate dummyT CalcEngine.new "0/5").1 = .ok 0 ∧
    (evaluate dummyT CalcEngine.new "8/4/2").1 = .ok 1 ∧
    ((8 : ℚ) / 4 / 2 = 1 ∧ (8 : ℚ) / (4 / 2) = 4 ∧ (1 : ℚ) ≠ 4) ∧
    (evaluate dummyT CalcEngine.new "2*3*4").1 = .ok 24 := by
  refine ⟨?_, by decide, by decide, by decide, by decide, by decide⟩
  have hf : parserFuel [.Number a, .Div, .Number b, .Div, .Number c] = 72 := rfl
  rw [hf]
  simp [parseExpr, parseAddSub, parseAddSubLoop, parseMulDiv,
    parseMulDivLoop, parsePower, parsePostfix, parsePostfixLoop, parseUnary,
    parsePrimary, peekT, nextT, bumpT, hb, hc]

/-- Witness for `C8_division_by_zero_and_left_associativity` at
`a, b, c := 8, 4, 2`. -/
theorem C8_division_by_zero_and_left_associativity_witness :
    parseExpr dummyT (parserFuel [.Number 8, .Div, .Number 4, .Div, .Number 2])
        { tokens := [.Number 8, .Div, .Number 4, .Div, .Number 2], pos := 0,
          angle := .Degrees } =
      (.ok ((8 : ℚ) / 4 / 2),
        { tokens := [.Number 8, .Div, .Number 4, .Div, .Number 2], pos := 5,
          angle := .Degrees }) ∧
    (evaluate dummyT CalcEngine.new "5/0").1 = .error "Math ERROR (div/0)" ∧
    (evaluate dummyT CalcEngine.new "0/5").1 = .ok 0 ∧
    (evaluate dummyT CalcEngine.new "8/4/2").1 = .ok 1 ∧
    ((8 : ℚ) / 4 / 2 = 1 ∧ (8 : ℚ) / (4 / 2) = 4 ∧ (1 : ℚ) ≠ 4) ∧
    (evaluate dummyT CalcEngine.new "2*3*4").1 = .ok 24 :=
  C8_division_by_zero_and_left_associativity dummyT .Degrees 8 4 2
    (by decide) (by decide)

/-- **C9** (confirmed).  Along any run of inputs from the fresh engine, the
history is exactly the suffix of the chronological success trace obtained by
dropping all but the last 50 entries — so after more than 50 successful
evaluations only the most recent 50 remain, oldest first — and its length
never exceeds 50. -/
theorem C9_history_bounded_to_last_fifty (T : TransFns) (es : List String) :
    (runEngine T CalcEngine.new es).history =
      (traceRun T CalcEngine.new es).drop
        ((traceRun T CalcEngine.new es).length - 50) ∧
    (runEngine T CalcEngine.new es).history.length ≤ 50 := by
  have h1 := runEngine_history T es CalcEngine.new
  have h2 := foldl_pushHistory_drop (traceRun T CalcEngine.new es) [] (by decide)
  rw [List.nil_append] at h2
  have hh : CalcEngine.new.history = [] := rfl
  rw [hh] at h1
  constructor
  · rw [h1, h2]
  · rw [h1, h2, List.length_drop]
    omega

/-- **C10** (confirmed).  For every angle mode and every value, converting to
radians and back returns the value exactly in the rational model (the claim's
1e-9 relative-error budget covers the floating-point rounding of the real
implementation, which the exact model renders as zero error). -/
theorem C10_angle_mode_roundtrip (m : AngleMode) (v : ℚ) :
    m.from_rad (m.to_rad v) = v ∧
    |m.from_rad (m.to_rad v) - v| ≤ 1 / 10 ^ 9 * |v| := by
  have hpi : ratPI ≠ 0 := by norm_num [ratPI]
  have key : m.from_rad (m.to_rad v) = v := by
    rcases m <;> simp only [AngleMode.to_rad, AngleMode.from_rad] <;>
      field_simp
  refine ⟨key, ?_⟩
  rw [key]
  simp only [sub_self, abs_zero]
  positivity
